import Mathlib

/-!
Verification of the pysim5g link-budget simulator against its specification.

The definitions below are a shallow embedding of the Python sources
`src/pysim5g/system_simulator.py`, `src/pysim5g/path_loss.py` and
`src/pysim5g/generate_hex.py`.  Python floats are modelled as real numbers,
Python lists as `List`, fallible code (functions that may raise) as `Except`,
and the global numpy random generator as an explicit state parameter drawn
from an arbitrary model `NpRng` of numpy's seeded generator.
-/

/-- Embedding of `np.log10`. -/
noncomputable def log10 (x : ℝ) : ℝ := Real.logb 10 x

/-- Embedding of Python `round(x, 2)`: round to two decimal places. -/
noncomputable def roundTo2 (x : ℝ) : ℝ := (round (x * 100) : ℤ) / 100

/-! ## system_simulator.py: calculate_sinr -/

open Classical in
/-- Embedding of `SimulationManager.calculate_sinr` from
`system_simulator.py` lines 428-481, where `network_load` is
`simulation_parameters['network_load']`.  Returns the 5-tuple
`(received_power, raw_sum_of_interference, noise, i_plus_n, sinr)`. -/
noncomputable def calculate_sinr (received_power : ℝ) (interference : List ℝ)
    (noise : ℝ) (network_load : ℝ) : ℝ × ℝ × ℝ × ℝ × ℝ :=
  let raw_received_power : ℝ := (10 : ℝ) ^ received_power
  -- for value in interference: interference_list.append(10**value)
  let interference_list : List ℝ := interference.map (fun value => (10 : ℝ) ^ value)
  -- interference_list.sort(reverse=True); interference_list = interference_list[:3]
  let interference_list : List ℝ := (interference_list.insertionSort (· ≥ ·)).take 3
  let i_summed : ℝ := interference_list.sum
  let raw_sum_of_interference : ℝ := i_summed * (network_load / 100)
  let raw_noise : ℝ := (10 : ℝ) ^ noise
  let i_plus_n : ℝ := raw_sum_of_interference + raw_noise
  let sinr : ℝ := roundTo2 (log10 (raw_received_power / i_plus_n))
  (received_power, raw_sum_of_interference, noise, i_plus_n, sinr)

open Classical in
/-- The linear-domain interference values kept by `calculate_sinr`:
the first three entries of the descending sort of `10**value`. -/
noncomputable def linearTop3 (interference : List ℝ) : List ℝ :=
  ((interference.map (fun value => (10 : ℝ) ^ value)).insertionSort (· ≥ ·)).take 3

open Classical in
/-- The linear-domain interference values discarded by `calculate_sinr`. -/
noncomputable def linearRest (interference : List ℝ) : List ℝ :=
  ((interference.map (fun value => (10 : ℝ) ^ value)).insertionSort (· ≥ ·)).drop 3

/-! ## system_simulator.py: average_capacity -/

/-- Embedding of `SimulationManager.average_capacity`
(`system_simulator.py` lines 532-561).  `site_area` is `self.site_area.area`
in square meters.  Returns `(capacity_mbps, capacity_mbps_km2)`. -/
noncomputable def average_capacity (bandwidth spectral_efficiency site_area : ℝ) : ℝ × ℝ :=
  let bandwidth_in_hertz : ℝ := bandwidth * 1e6
  let capacity_mbps : ℝ := (bandwidth_in_hertz * spectral_efficiency) / 1e6
  let capacity_mbps_km2 : ℝ := capacity_mbps / (site_area / 1e6)
  (capacity_mbps, capacity_mbps_km2)

/-! ## system_simulator.py: modulation_scheme_and_coding_rate

The lookup-table rows are tuples read at indices 0 (generation),
4 (spectral efficiency) and 5 (SINR threshold); the record below names
exactly the fields the function reads, in tuple order. -/

/-- One row of `modulation_and_coding_lut` as consumed by
`modulation_scheme_and_coding_rate`: field names follow the tuple
positions `[0]`, `[1]`, `[2]`, `[3]`, `[4]`, `[5]` used by the code. -/
structure MCEntry where
  generation : String
  mimo : String
  cqi : ℕ
  modulation : String
  se : ℚ
  sinr : ℚ
deriving Repr, DecidableEq

/-- Embedding of `pairwise(iterable)` from `system_simulator.py` lines 698-719:
the sliding window of adjacent 2-tuples. -/
def pairwiseList {α : Type} (l : List α) : List (α × α) := l.zip l.tail

/-- The loop body of `modulation_scheme_and_coding_rate`: walks the adjacent
pairs; `highest` is `modulation_and_coding_lut[-1]` and `lowest` is
`modulation_and_coding_lut[0]`.  Python's truthiness test `lower[0]`
on a string is `lower.generation ≠ ""`.  Falling off the loop returns
Python's implicit `None`. -/
def msacrAux (sinr : ℚ) (generation : String) (highest lowest : MCEntry) :
    List (MCEntry × MCEntry) → Option ℚ
  | [] => none
  | (lower, upper) :: rest =>
    if lower.generation ≠ "" ∧ upper.generation = generation then
      if lower.sinr ≤ sinr ∧ sinr < upper.sinr then some lower.se
      else if highest.sinr ≤ sinr then some highest.se
      else if sinr < lowest.sinr then some 0
      else msacrAux sinr generation highest lowest rest
    else msacrAux sinr generation highest lowest rest

/-- Embedding of `SimulationManager.modulation_scheme_and_coding_rate`
(`system_simulator.py` lines 484-529).  The local default
`spectral_efficiency = 0.1` is assigned but never returned by the code:
every exit is one of the three `return` statements inside the loop or the
implicit `None` at the end of the function, modelled as `none`. -/
def modulation_scheme_and_coding_rate (sinr : ℚ) (generation : String)
    (modulation_and_coding_lut : List MCEntry) : Option ℚ :=
  match modulation_and_coding_lut with
  | [] => none
  | e :: rest =>
    msacrAux sinr generation ((e :: rest).getLast (List.cons_ne_nil e rest)) e
      (pairwiseList (e :: rest))

/-! ## path_loss.py

Errors raised by the module (and the `ZeroDivisionError` arising in
`calculate_interference`) are modelled by an explicit error type; the
`frequencyOutOfRange` constructor carries the frequency interpolated into
the message `"frequency of {} is NOT within correct range"`. -/

/-- Exceptions raised by the embedded Python code. -/
inductive PyErr where
  | frequencyOutOfRange (frequency : ℝ)
  | distanceNotCompliant
  | hataFrequencyIncorrect
  | aboveRoofUnknown
  | zeroDivisionError

/-- A model of numpy's global pseudo-random generator with state type `S`:
`seed` models `np.random.seed`, `lognormalMean` models drawing `draws`
samples with `np.random.lognormal(mean, std, draws)` and taking `np.mean`,
returning the mean together with the advanced state, and `firstTwoDigits`
models Python's `int(str(x)[:2])` on the float `x`. -/
structure NpRng (S : Type) where
  seed : ℕ → S
  lognormalMean : S → ℝ → ℝ → ℕ → ℝ × S
  firstTwoDigits : ℝ → ℕ

/-- Embedding of `generate_log_normal_dist_value` (`path_loss.py` lines
475-514), threading the numpy generator state explicitly.  A `none`
seed is Python's `None` (no reseed); otherwise the generator is reseeded
from `int(str(seed_value * frequency * 100)[:2])`. -/
noncomputable def generate_log_normal_dist_value {S : Type} (env : NpRng S) (st : S)
    (frequency mu sigma : ℝ) (draws : ℕ) (seed_value : Option ℤ) : ℝ × S :=
  let st1 : S :=
    match seed_value with
    | none => st
    | some sv => env.seed (env.firstTwoDigits ((sv : ℝ) * frequency * 100))
  let normal_std : ℝ := Real.sqrt (log10 (1 + (sigma / mu) ^ 2))
  let normal_mean : ℝ := log10 mu - normal_std ^ 2 / 2
  let hs := env.lognormalMean st1 normal_mean normal_std draws
  (roundTo2 hs.1, hs.2)

/-- Embedding of `free_space` (`path_loss.py` lines 136-174).  The
frequency argument is in GHz and the distance in meters; the body converts
to MHz and kilometers. -/
noncomputable def free_space {S : Type} (env : NpRng S) (st : S)
    (frequency distance ant_height ue_height : ℝ)
    (seed_value : Option ℤ) (iterations : ℕ) : ℝ × S :=
  let frequency := frequency * 1000
  let distance := distance / 1000
  let rv := generate_log_normal_dist_value env st frequency 1 2.5 iterations seed_value
  (roundTo2 (32.4 + 10 * log10 (((ant_height - ue_height) / 1000) ^ 2 + distance ^ 2) +
    (20 * log10 frequency + rv.1)), rv.2)

open Classical in
/-- The `alpha_exponent` computation of `extended_hata` (`path_loss.py`
lines 221-231); `frequency` and `distance` are the converted MHz/km
values, `hb` the larger antenna height. -/
noncomputable def hataAlphaExponent (frequency distance hb : ℝ) : Except PyErr ℝ :=
  if distance ≤ 20 then .ok 1
  else if 20 < distance ∧ distance < 100 then
    .ok (1 + (0.14 + 1.87e-4 * frequency + 1.07e-3 * hb) *
      (log10 (distance / 20)) ^ (0.8 : ℝ))
  else .error .distanceNotCompliant

open Classical in
/-- The frequency-banded formulas of `extended_hata` PART 1 for
`distance >= 0.1` km (`path_loss.py` lines 245-283). -/
noncomputable def hataBandPathLoss (frequency distance hb alpha_hm beta_hb
    alpha_exponent : ℝ) : Except PyErr ℝ :=
  if 30 < frequency ∧ frequency ≤ 150 then
    .ok (69.6 + 26.2 * log10 150 - 20 * log10 (150 / frequency) -
      13.82 * log10 (max 30 hb) +
      (44.9 - 6.55 * log10 (max 30 hb)) *
      (log10 distance) ^ alpha_exponent - alpha_hm - beta_hb)
  else if 150 < frequency ∧ frequency ≤ 1500 then
    .ok (69.6 + 26.2 * log10 frequency -
      13.82 * log10 (max 30 hb) +
      (44.9 - 6.55 * log10 (max 30 hb)) *
      (log10 distance) ^ alpha_exponent - alpha_hm - beta_hb)
  else if 1500 < frequency ∧ frequency ≤ 2000 then
    .ok (46.3 + 33.9 * log10 frequency -
      13.82 * log10 (max 30 hb) +
      (44.9 - 6.55 * log10 (max 30 hb)) *
      (log10 distance) ^ alpha_exponent - alpha_hm - beta_hb)
  else if 2000 < frequency ∧ frequency ≤ 4000 then
    .ok (46.3 + 33.9 * log10 2000 +
      10 * log10 (frequency / 2000) -
      13.82 * log10 (max 30 hb) +
      (44.9 - 6.55 * log10 (max 30 hb)) *
      (log10 distance) ^ alpha_exponent - alpha_hm - beta_hb)
  else .error .hataFrequencyIncorrect

open Classical in
/-- The settlement-type correction of `extended_hata` PART 1
(`path_loss.py` lines 285-301). -/
noncomputable def hataSettlementCorrection (frequency path_loss : ℝ)
    (settlement_type : String) : ℝ :=
  if settlement_type = "suburban" then
    path_loss - 2 * (log10 (min (max 150 frequency) 2000 / 28)) ^ 2 - 5.4
  else if settlement_type = "rural" then
    path_loss - 4.78 * (log10 (min (max 150 frequency) 2000)) ^ 2 +
      18.33 * log10 (min (max 150 frequency) 2000) - 40.94
  else path_loss

open Classical in
/-- PART 1 of `extended_hata` (`path_loss.py` lines 233-325): initial
path loss by distance regime, frequency band and environment. -/
noncomputable def hataMedianPathLoss (frequency distance hm hb alpha_hm beta_hb
    alpha_exponent : ℝ) (settlement_type : String) : Except PyErr ℝ :=
  if distance < 0.04 then
    .ok (32.4 + (20 * log10 frequency) +
      (10 * log10 (distance ^ 2 + (hb - hm) ^ 2 / 10 ^ 6)))
  else if distance ≥ 0.1 then
    match hataBandPathLoss frequency distance hb alpha_hm beta_hb alpha_exponent with
    | .error e => .error e
    | .ok path_loss => .ok (hataSettlementCorrection frequency path_loss settlement_type)
  else if 0.04 ≤ distance ∧ distance < 0.1 then
    let l_fixed_distance_upper : ℝ := 32.4 + (20 * log10 frequency) +
      (10 * log10 ((0.1 : ℝ) ^ 2 + (hb - hm) ^ 2 / 10 ^ 6))
    let l_fixed_distance_lower : ℝ := 32.4 + (20 * log10 frequency) +
      (10 * log10 ((0.04 : ℝ) ^ 2 + (hb - hm) ^ 2 / 10 ^ 6))
    .ok (l_fixed_distance_lower +
      (log10 distance - log10 0.04) / (log10 0.1 - log10 0.04) *
      (l_fixed_distance_upper - l_fixed_distance_lower))
  else .error .distanceNotCompliant

open Classical in
/-- PART 2 of `extended_hata` (`path_loss.py` lines 327-430): the
stochastic variation added to the median path loss, with the
distance-regime and roof-relation dependent sigma. -/
noncomputable def hataVariation {S : Type} (env : NpRng S) (st : S)
    (frequency distance path_loss : ℝ) (above_roof : ℤ)
    (seed_value : Option ℤ) (iterations : ℕ) : Except PyErr (ℝ × S) :=
  if distance ≤ 0.04 then
    let rq := generate_log_normal_dist_value env st frequency 1 3.5 iterations seed_value
    .ok (path_loss + rq.1, rq.2)
  else if 0.04 < distance ∧ distance ≤ 0.1 then
    if above_roof = 1 then
      let sigma : ℝ := 3.5 + ((12 - 3.5) / 0.1 - 0.04) * (distance - 0.04)
      let rq := generate_log_normal_dist_value env st frequency 1 sigma iterations seed_value
      .ok (path_loss + rq.1, rq.2)
    else if above_roof = 0 then
      let sigma : ℝ := 3.5 + ((17 - 3.5) / 0.1 - 0.04) * (distance - 0.04)
      let rq := generate_log_normal_dist_value env st frequency 1 sigma iterations seed_value
      .ok (path_loss + rq.1, rq.2)
    else .error .aboveRoofUnknown
  else if 0.1 < distance ∧ distance ≤ 0.2 then
    if above_roof = 1 then
      let rq := generate_log_normal_dist_value env st frequency 1 12 iterations seed_value
      .ok (path_loss + rq.1, rq.2)
    else if above_roof = 0 then
      let rq := generate_log_normal_dist_value env st frequency 1 17 iterations seed_value
      .ok (path_loss + rq.1, rq.2)
    else .error .aboveRoofUnknown
  else if 0.2 < distance ∧ distance ≤ 0.6 then
    if above_roof = 1 then
      let sigma : ℝ := 12 + ((9 - 12) / 0.6 - 0.2) * (distance - 0.02)
      let rq := generate_log_normal_dist_value env st frequency 1 sigma iterations seed_value
      .ok (path_loss + rq.1, rq.2)
    else if above_roof = 0 then
      let sigma : ℝ := 17 + (9 - 17) / (0.6 - 0.2) * (distance - 0.02)
      let rq := generate_log_normal_dist_value env st frequency 1 sigma iterations seed_value
      .ok (path_loss + rq.1, rq.2)
    else .error .aboveRoofUnknown
  else
    let rq := generate_log_normal_dist_value env st frequency 1 12 iterations seed_value
    .ok (path_loss + rq.1, rq.2)

/-- Embedding of `extended_hata` (`path_loss.py` lines 177-432), composed
from the `alpha_exponent` computation, PART 1 and PART 2 above; each
`raise ValueError` site becomes an `Except.error` that propagates, exactly
as a Python exception aborts the function. -/
noncomputable def extended_hata {S : Type} (env : NpRng S) (st : S)
    (frequency distance ant_height : ℝ) (ant_type : String)
    (building_height street_width : ℝ) (settlement_type type_of_sight : String)
    (ue_height : ℝ) (above_roof : ℤ) (seed_value : Option ℤ) (iterations : ℕ) :
    Except PyErr (ℝ × S) :=
  match hataAlphaExponent (frequency * 1000) (distance / 1000)
      (max ant_height ue_height) with
  | .error e => .error e
  | .ok alpha_exponent =>
    match hataMedianPathLoss (frequency * 1000) (distance / 1000)
        (min ant_height ue_height) (max ant_height ue_height)
        ((1.1 * log10 (frequency * 1000) - 0.7) * min 10 (min ant_height ue_height) -
          (1.56 * log10 (frequency * 1000) - 0.8) +
          max 0 (20 * log10 (min ant_height ue_height / 10)))
        (min 0 (20 * log10 (max ant_height ue_height / 30)))
        alpha_exponent settlement_type with
    | .error e => .error e
    | .ok path_loss =>
      match hataVariation env st (frequency * 1000) (distance / 1000) path_loss
          above_roof seed_value iterations with
      | .error e => .error e
      | .ok out => .ok (roundTo2 out.1, out.2)

/-- Embedding of `uma_nlos_optional` (`path_loss.py` lines 435-472).  Note
the code applies no GHz-to-MHz conversion here. -/
noncomputable def uma_nlos_optional {S : Type} (env : NpRng S) (st : S)
    (frequency distance ant_height ue_height : ℝ)
    (seed_value : Option ℤ) (iterations : ℕ) : ℝ × S :=
  let distance_3d : ℝ := Real.sqrt (distance ^ 2 + (ant_height - ue_height) ^ 2)
  let path_loss : ℝ := 32.4 + 20 * log10 frequency + 30 * log10 distance_3d
  let rv := generate_log_normal_dist_value env st frequency 1 7.8 iterations seed_value
  (roundTo2 (path_loss + rv.1), rv.2)

/-- Embedding of `outdoor_to_indoor_path_loss` (`path_loss.py` lines
517-545). -/
noncomputable def outdoor_to_indoor_path_loss {S : Type} (env : NpRng S) (st : S)
    (frequency : ℝ) (indoor : Bool) (seed_value : Option ℤ) : ℝ × S :=
  if indoor then generate_log_normal_dist_value env st frequency 12 8 1 seed_value
  else (0, st)

open Classical in
/-- Embedding of `determine_path_loss` (`path_loss.py` lines 100-133):
free space acts as a floor under the extended-Hata median loss. -/
noncomputable def determine_path_loss (free_space_path_loss extended_hata_path_loss : ℝ) :
    ℝ × String :=
  if extended_hata_path_loss < free_space_path_loss then
    (free_space_path_loss, "free_space_path_loss")
  else
    (extended_hata_path_loss, "extended_hata_path_loss")

/-- The `0.03 < frequency <= 3` branch of `path_loss_calculator`: free
space and extended Hata combined through `determine_path_loss`. -/
noncomputable def hataCombo {S : Type} (env : NpRng S) (st : S)
    (frequency distance ant_height : ℝ) (ant_type : String)
    (building_height street_width : ℝ) (settlement_type type_of_sight : String)
    (ue_height : ℝ) (above_roof : ℤ) (seed_value : Option ℤ) (iterations : ℕ) :
    Except PyErr ((ℝ × String) × S) := do
  let fs := free_space env st frequency distance ant_height ue_height seed_value iterations
  let eh ← extended_hata env fs.2 frequency distance ant_height ant_type building_height
    street_width settlement_type type_of_sight ue_height above_roof seed_value iterations
  let pm := determine_path_loss fs.1 eh.1
  pure ((pm.1, pm.2), eh.2)

open Classical in
/-- Embedding of `path_loss_calculator` (`path_loss.py` lines 20-97):
frequency-band dispatch, then outdoor-to-indoor penetration, then rounding. -/
noncomputable def path_loss_calculator {S : Type} (env : NpRng S) (st : S)
    (frequency distance ant_height : ℝ) (ant_type : String)
    (building_height street_width : ℝ) (settlement_type type_of_sight : String)
    (ue_height : ℝ) (above_roof : ℤ) (indoor : Bool)
    (seed_value : Option ℤ) (iterations : ℕ) : Except PyErr ((ℝ × String) × S) := do
  let plm : (ℝ × String) × S ←
    if 0.03 < frequency ∧ frequency ≤ 3 then
      hataCombo env st frequency distance ant_height ant_type building_height
        street_width settlement_type type_of_sight ue_height above_roof seed_value iterations
    else if 3 ≤ frequency ∧ frequency < 6 then
      let pl := uma_nlos_optional env st frequency distance ant_height ue_height
        seed_value iterations
      pure ((pl.1, "uma_nlos_optional"), pl.2)
    else
      .error (.frequencyOutOfRange frequency)
  let o2i := outdoor_to_indoor_path_loss env plm.2 frequency indoor seed_value
  pure ((roundTo2 (plm.1.1 + o2i.1), plm.1.2), o2i.2)

/-! ## system_simulator.py: objects and interference -/

/-- The fields of `Transmitter` / `InterferingTransmitter`
(`system_simulator.py` lines 592-617 and 674-695) used by the simulator:
projected coordinates plus the simulation parameters
`tx_baseline_height`, `tx_power`, `tx_gain`, `tx_losses`. -/
structure Transmitter where
  coordinates : ℝ × ℝ
  ant_height : ℝ
  power : ℝ
  gain : ℝ
  losses : ℝ

/-- The fields of `Receiver` (`system_simulator.py` lines 647-671). -/
structure Receiver where
  coordinates : ℝ × ℝ
  misc_losses : ℝ
  gain : ℝ
  losses : ℝ
  ue_height : ℝ
  indoor : Bool

/-- Embedding of `SimulationManager.calc_received_power`
(`system_simulator.py` lines 231-271).  `self_transmitter` is
`self.transmitter`; the `transmitter` parameter mirrors the Python
parameter, which the body never reads: the EIRP is taken from
`self.transmitter`. -/
def calc_received_power (self_transmitter transmitter : Transmitter)
    (receiver : Receiver) (path_loss : ℝ) : ℝ :=
  let eirp : ℝ := self_transmitter.power + self_transmitter.gain - self_transmitter.losses
  eirp - path_loss - receiver.misc_losses + receiver.gain - receiver.losses

/-- Straight-line (`shapely.LineString`) length between two points. -/
noncomputable def lineLength (a b : ℝ × ℝ) : ℝ :=
  Real.sqrt ((a.1 - b.1) ^ 2 + (a.2 - b.2) ^ 2)

open Classical in
/-- The body of the `for interfering_transmitter in ...` loop of
`SimulationManager.calculate_interference` (`system_simulator.py` lines
315-370), folded over the remaining interferers.  The accumulator carries
`(interference, model, ave_distance, ave_pl, state)`; `model` is the
Python local of the same name, unassigned (`none`) until the first
iteration. -/
noncomputable def interferenceLoop {S : Type} (env : NpRng S)
    (self_transmitter : Transmitter) (receiver : Receiver)
    (frequency : ℝ) (environment : String) (seed_value : Option ℤ) (iterations : ℕ) :
    List Transmitter → List ℝ × Option String × ℝ × ℝ × S →
    Except PyErr (List ℝ × Option String × ℝ × ℝ × S)
  | [], acc => pure acc
  | interfering_transmitter :: rest, (interference, _model, ave_distance, ave_pl, st) => do
    let interference_strt_distance : ℝ :=
      lineLength receiver.coordinates interfering_transmitter.coordinates
    let type_of_sight : String := if interference_strt_distance < 250 then "los" else "nlos"
    let plm ← path_loss_calculator env st frequency interference_strt_distance
      interfering_transmitter.ant_height "macro" 20 20 environment type_of_sight
      receiver.ue_height 0 receiver.indoor seed_value iterations
    let received_interference : ℝ :=
      calc_received_power self_transmitter interfering_transmitter receiver plm.1.1
    interferenceLoop env self_transmitter receiver frequency environment seed_value iterations
      rest
      (interference ++ [received_interference], some plm.1.2,
        ave_distance + interference_strt_distance, ave_pl + plm.1.1, plm.2)

/-- Embedding of `SimulationManager.calculate_interference`
(`system_simulator.py` lines 274-380).  After the loop the code divides
by `len(self.interfering_transmitters.values())`; with no interferers
this is Python's `ZeroDivisionError`, modelled by the error branch.
Returns `((interference, model, ave_distance, ave_pl), state)`. -/
noncomputable def calculate_interference {S : Type} (env : NpRng S) (st : S)
    (self_transmitter : Transmitter) (receiver : Receiver)
    (interfering_transmitters : List Transmitter)
    (frequency : ℝ) (environment : String) (seed_value : Option ℤ) (iterations : ℕ) :
    Except PyErr ((List ℝ × String × ℝ × ℝ) × S) := do
  let acc ← interferenceLoop env self_transmitter receiver frequency environment
    seed_value iterations interfering_transmitters ([], none, 0, 0, st)
  match interfering_transmitters, acc with
  | [], _ => .error .zeroDivisionError
  | _ :: _, (interference, model, ave_distance, ave_pl, st') =>
    pure ((interference, model.getD "",
      ave_distance / (interfering_transmitters.length : ℝ),
      ave_pl / (interfering_transmitters.length : ℝ)), st')

/-! ## generate_hex.py -/

/-- The hexagon polygon assembled in the inner loop of
`calculate_polygons` (`generate_hex.py` lines 128-147): six vertices
plus the repeated first vertex, derived from the side length
`sl = 2 * radius * tan(pi / 6)`. -/
noncomputable def hexPoly (startx starty radius : ℝ) : List (ℝ × ℝ) :=
  let sl : ℝ := 2 * radius * Real.tan (Real.pi / 6)
  let p : ℝ := sl * 0.5
  let b : ℝ := sl * Real.cos (Real.pi / 6)
  let w : ℝ := b * 2
  let h : ℝ := 2 * sl
  [(startx, starty + p),
   (startx, starty + 3 * p),
   (startx + b, starty + h),
   (startx + w, starty + 3 * p),
   (startx + w, starty + p),
   (startx + b, starty),
   (startx, starty + p)]

open Classical in
/-- Embedding of `calculate_polygons` (`generate_hex.py` lines 58-157).
The two `while` loops advance `starty` by `yoffset = 3 * p` and `startx`
by `w` from start values offset outward by one hex height/width; the
number of iterations of a loop `while v < e: ...; v += step` starting at
`v₀` with `step > 0` is `⌈(e - v₀) / step⌉₊`, and even-numbered rows
(`row % 2 == 0`, with `row` counted from 1) are staggered by
`xoffset = b`. -/
noncomputable def calculate_polygons (startx starty endx endy radius : ℝ) :
    List (List (ℝ × ℝ)) :=
  let sl : ℝ := 2 * radius * Real.tan (Real.pi / 6)
  let p : ℝ := sl * 0.5
  let b : ℝ := sl * Real.cos (Real.pi / 6)
  let w : ℝ := b * 2
  let h : ℝ := 2 * sl
  let startx := startx - w
  let starty := starty - h
  let endx := endx + w
  let endy := endy + h
  let origx := startx
  let xoffset : ℝ := b
  let yoffset : ℝ := 3 * p
  (List.range ⌈(endy - starty) / yoffset⌉₊).flatMap (fun i =>
    let rowy : ℝ := starty + (i : ℝ) * yoffset
    let rowx : ℝ := if (i + 1) % 2 = 0 then origx + xoffset else origx
    (List.range ⌈(endx - rowx) / w⌉₊).map (fun j =>
      hexPoly (rowx + (j : ℝ) * w) rowy radius))

/-- Planar (shoelace) area of a closed coordinate ring, as computed by
`shapely`'s `Polygon(...).area` for the simple polygons produced here. -/
noncomputable def shoelaceArea (ps : List (ℝ × ℝ)) : ℝ :=
  |((ps.zip ps.tail).map (fun q => q.1.1 * q.2.2 - q.2.1 * q.1.2)).sum| / 2

/-- A trivial instance of the numpy-generator model, used to evaluate the
embedding at concrete inputs. -/
noncomputable def trivEnv : NpRng Unit where
  seed _ := ()
  lognormalMean _ _ _ _ := (0, ())
  firstTwoDigits _ := 0

/-- Totality of the descending order used by the Python `sort(reverse=True)`. -/
instance realGeIsTotal : IsTotal ℝ (· ≥ ·) := ⟨fun a b => le_total b a⟩

/-- Transitivity of the descending order used by the Python `sort(reverse=True)`. -/
instance realGeIsTrans : IsTrans ℝ (· ≥ ·) := ⟨fun _ _ _ h1 h2 => le_trans h2 h1⟩

/-- A sample transmitter (values from the repository's test fixtures). -/
noncomputable def tx0 : Transmitter :=
  { coordinates := (538742.8, 177200.6), ant_height := 30, power := 40, gain := 16, losses := 1 }

/-- A sample receiver (values from the repository's test fixtures). -/
noncomputable def rcv0 : Receiver :=
  { coordinates := (538504.2, 177063.3), misc_losses := 4, gain := 4, losses := 4,
    ue_height := 1.5, indoor := false }

/-- A sample modulation-and-coding row (first 4G row of the repository's
lookup table, as read by the code at indices 0, 4 and 5). -/
def mc1 : MCEntry :=
  { generation := "4G", mimo := "1x1", cqi := 1, modulation := "QPSK", se := 0.1523, sinr := -6.7 }

/-- A second sample modulation-and-coding row. -/
def mc2 : MCEntry :=
  { generation := "4G", mimo := "1x1", cqi := 2, modulation := "QPSK", se := 0.2344, sinr := -4.7 }

/-! # Theorems -/

/-- C6.  Determinism of the stochastic draw: with a non-`None` seed, two
calls to `generate_log_normal_dist_value` with identical
`(frequency, mu, sigma, iterations)` return the same value regardless of
the incoming generator state, because the function reseeds the generator
from `seed_value * frequency * 100` on every call. -/
theorem generate_log_normal_deterministic {S : Type} (env : NpRng S) (st1 st2 : S)
    (frequency mu sigma : ℝ) (draws : ℕ) (sv : ℤ) :
    (generate_log_normal_dist_value env st1 frequency mu sigma draws (some sv)).1 =
    (generate_log_normal_dist_value env st2 frequency mu sigma draws (some sv)).1 := rfl

/-- C7.  `average_capacity` computes
`capacity_mbps = bandwidth * 1e6 * spectral_efficiency / 1e6` and
`capacity_mbps_km2 = capacity_mbps / (site_area / 1e6)`, and doubling the
site area halves the per-km² figure. -/
theorem average_capacity_spec (bandwidth spectral_efficiency site_area : ℝ)
    (h : 0 < site_area) :
    (average_capacity bandwidth spectral_efficiency site_area).1 =
      bandwidth * 1e6 * spectral_efficiency / 1e6 ∧
    (average_capacity bandwidth spectral_efficiency site_area).2 =
      (average_capacity bandwidth spectral_efficiency site_area).1 / (site_area / 1e6) ∧
    (average_capacity bandwidth spectral_efficiency (2 * site_area)).2 =
      (average_capacity bandwidth spectral_efficiency site_area).2 / 2 :=
  by
  refine ⟨rfl, rfl, ?_⟩
  have hne : site_area ≠ 0 := ne_of_gt h
  simp only [average_capacity]
  rw [div_div_eq_mul_div, div_div_eq_mul_div, mul_comm 2 site_area, ← div_div]

/-- Witness for C7 at bandwidth 10 MHz, spectral efficiency 2,
site area 1e6 m². -/
theorem average_capacity_spec_witness :
    (0 : ℝ) < 1e6 ∧
    ((average_capacity 10 2 1e6).1 = 10 * 1e6 * 2 / 1e6 ∧
     (average_capacity 10 2 1e6).2 = (average_capacity 10 2 1e6).1 / ((1e6 : ℝ) / 1e6) ∧
     (average_capacity 10 2 (2 * 1e6)).2 = (average_capacity 10 2 1e6).2 / 2) :=
  ⟨by norm_num, average_capacity_spec 10 2 1e6 (by norm_num)⟩

/-- Helper for C10: the interference loop is unchanged when every
interfering transmitter is replaced by one with the same coordinates and
antenna height (its `power`, `gain` and `losses` are never read: the
received power uses `self.transmitter`). -/
theorem interferenceLoop_map {S : Type} (env : NpRng S) (self_tx : Transmitter)
    (receiver : Receiver) (frequency : ℝ) (environment : String)
    (seed_value : Option ℤ) (iterations : ℕ) (g : Transmitter → Transmitter)
    (hg : ∀ t, (g t).coordinates = t.coordinates ∧ (g t).ant_height = t.ant_height) :
    ∀ (ts : List Transmitter) (acc : List ℝ × Option String × ℝ × ℝ × S),
      interferenceLoop env self_tx receiver frequency environment seed_value iterations
        (ts.map g) acc =
      interferenceLoop env self_tx receiver frequency environment seed_value iterations
        ts acc := by
  intro ts
  induction ts with
  | nil => intro acc; rfl
  | cons t ts ih =>
    intro acc
    obtain ⟨a1, a2, a3, a4, a5⟩ := acc
    simp only [List.map_cons, interferenceLoop, (hg t).1, (hg t).2, calc_received_power, ih]

/-- C10.  `calc_received_power` ignores its `transmitter` parameter: the
EIRP is always taken from `self.transmitter`, so any two transmitter
arguments give the same received power; consequently
`calculate_interference` is unchanged when the interfering transmitters'
`power`, `gain` and `losses` are replaced arbitrarily (only their
coordinates and antenna heights are read). -/
theorem calc_received_power_ignores_transmitter {S : Type} (env : NpRng S) (st : S)
    (self_tx t1 t2 : Transmitter) (receiver : Receiver) (path_loss : ℝ)
    (ts : List Transmitter) (frequency : ℝ) (environment : String)
    (seed_value : Option ℤ) (iterations : ℕ)
    (g : Transmitter → Transmitter)
    (hg : ∀ t, (g t).coordinates = t.coordinates ∧ (g t).ant_height = t.ant_height) :
    calc_received_power self_tx t1 receiver path_loss =
      calc_received_power self_tx t2 receiver path_loss ∧
    calculate_interference env st self_tx receiver (ts.map g) frequency environment
        seed_value iterations =
      calculate_interference env st self_tx receiver ts frequency environment
        seed_value iterations := by
  refine ⟨rfl, ?_⟩
  simp only [calculate_interference,
    interferenceLoop_map env self_tx receiver frequency environment seed_value iterations g hg]
  cases ts with
  | nil => rfl
  | cons t ts => simp only [List.map_cons, List.length_cons, List.length_map]

/-- Witness for C10: two transmitters differing in power give the same
received power, and zeroing out the power, gain and losses of the
interferer list leaves `calculate_interference` unchanged. -/
theorem calc_received_power_ignores_transmitter_witness :
    calc_received_power tx0 tx0 rcv0 100 =
      calc_received_power tx0 { tx0 with power := 0 } rcv0 100 ∧
    calculate_interference trivEnv () tx0 rcv0
        ([tx0].map (fun t => { t with power := 0, gain := 0, losses := 0 }))
        0.7 "urban" (some 42) 1 =
      calculate_interference trivEnv () tx0 rcv0 [tx0] 0.7 "urban" (some 42) 1 :=
  calc_received_power_ignores_transmitter trivEnv () tx0 tx0 { tx0 with power := 0 }
    rcv0 100 [tx0] 0.7 "urban" (some 42) 1
    (fun t => { t with power := 0, gain := 0, losses := 0 }) (fun _ => ⟨rfl, rfl⟩)

/-- C9 (amended).  With an empty interfering-transmitter set,
`calculate_interference` divides the running distance and path-loss sums
by `len(...) = 0`: the call does not complete but raises Python's
`ZeroDivisionError`, modelled here as an error value.  The code contains
no guard for this case. -/
theorem calculate_interference_empty {S : Type} (env : NpRng S) (st : S)
    (self_tx : Transmitter) (receiver : Receiver) (frequency : ℝ)
    (environment : String) (seed_value : Option ℤ) (iterations : ℕ) :
    calculate_interference env st self_tx receiver [] frequency environment
      seed_value iterations = .error .zeroDivisionError := rfl

/-- Counterexample for C9 as stated: at the concrete empty interferer set
the call does not return a guarded `0`/no-interferers marker, it fails
with the division-by-zero error. -/
theorem calculate_interference_empty_counterexample :
    calculate_interference trivEnv () tx0 rcv0 [] 0.7 "urban" (some 42) 1 =
      .error .zeroDivisionError := rfl

/-- Helper for C8: if no adjacent pair passes the generation test, the
loop falls through and returns `none`. -/
theorem msacrAux_no_match (sinr : ℚ) (generation : String) (highest lowest : MCEntry) :
    ∀ ps : List (MCEntry × MCEntry),
      (∀ pr ∈ ps, ¬(pr.1.generation ≠ "" ∧ pr.2.generation = generation)) →
      msacrAux sinr generation highest lowest ps = none := by
  intro ps
  induction ps with
  | nil => intro _; rfl
  | cons pr rest ih =>
    intro h
    obtain ⟨lower, upper⟩ := pr
    simp only [msacrAux, if_neg (h (lower, upper) (List.mem_cons_self _ _))]
    exact ih fun q hq => h q (List.mem_cons_of_mem _ hq)

/-- Helper for C8: any value returned by the loop is `0`, the last row's
spectral efficiency, or some walked pair's lower spectral efficiency —
never the dead local default `0.1`. -/
theorem msacrAux_some_cases (sinr : ℚ) (generation : String) (highest lowest : MCEntry) :
    ∀ (ps : List (MCEntry × MCEntry)) (v : ℚ),
      msacrAux sinr generation highest lowest ps = some v →
      v = 0 ∨ v = highest.se ∨ ∃ pr ∈ ps, v = pr.1.se := by
  intro ps
  induction ps with
  | nil => intro v h; exact absurd h (by simp [msacrAux])
  | cons pr rest ih =>
    intro v h
    obtain ⟨lower, upper⟩ := pr
    by_cases hc : lower.generation ≠ "" ∧ upper.generation = generation
    · rw [msacrAux, if_pos hc] at h
      by_cases h1 : lower.sinr ≤ sinr ∧ sinr < upper.sinr
      · rw [if_pos h1] at h
        right; right
        exact ⟨(lower, upper), List.mem_cons_self _ _, (Option.some_injective _ h).symm⟩
      · rw [if_neg h1] at h
        by_cases h2 : highest.sinr ≤ sinr
        · rw [if_pos h2] at h
          exact Or.inr (Or.inl (Option.some_injective _ h).symm)
        · rw [if_neg h2] at h
          by_cases h3 : sinr < lowest.sinr
          · rw [if_pos h3] at h
            exact Or.inl (Option.some_injective _ h).symm
          · rw [if_neg h3] at h
            rcases ih v h with h' | h' | ⟨q, hq, hv⟩
            · exact Or.inl h'
            · exact Or.inr (Or.inl h')
            · exact Or.inr (Or.inr ⟨q, List.mem_cons_of_mem _ hq, hv⟩)
    · rw [msacrAux, if_neg hc] at h
      rcases ih v h with h' | h' | ⟨q, hq, hv⟩
      · exact Or.inl h'
      · exact Or.inr (Or.inl h')
      · exact Or.inr (Or.inr ⟨q, List.mem_cons_of_mem _ hq, hv⟩)

/-- C8.  On an empty table, or on any table with no adjacent pair passing
the generation test, `modulation_scheme_and_coding_rate` falls through and
returns `none` (Python's implicit `None`) without signalling an error; and
any value it does return is `0` or a table row's spectral efficiency, so
the assigned default `0.1` is never the returned value. -/
theorem modulation_lookup_fallthrough (sinr : ℚ) (generation : String)
    (lut : List MCEntry) :
    (modulation_scheme_and_coding_rate sinr generation [] = none) ∧
    ((∀ pr ∈ pairwiseList lut, ¬(pr.1.generation ≠ "" ∧ pr.2.generation = generation)) →
      modulation_scheme_and_coding_rate sinr generation lut = none) ∧
    (∀ v, modulation_scheme_and_coding_rate sinr generation lut = some v →
      v = 0 ∨ ∃ e ∈ lut, v = e.se) := by
  refine ⟨rfl, ?_, ?_⟩
  · intro h
    cases lut with
    | nil => rfl
    | cons e rest =>
      exact msacrAux_no_match sinr generation _ e (pairwiseList (e :: rest)) h
  · intro v h
    cases lut with
    | nil => exact absurd h (by simp [modulation_scheme_and_coding_rate])
    | cons e rest =>
      rcases msacrAux_some_cases sinr generation _ e (pairwiseList (e :: rest)) v h with
        h' | h' | ⟨pr, hpr, hv⟩
      · exact Or.inl h'
      · exact Or.inr ⟨(e :: rest).getLast (List.cons_ne_nil e rest),
          List.getLast_mem _, h'⟩
      · refine Or.inr ⟨pr.1, ?_, hv⟩
        exact (List.of_mem_zip hpr).1

/-- Witness for C8: a `5G` lookup on a two-row `4G` table falls through to
`none`, and the all-`4G` mismatch hypothesis is discharged by computation. -/
theorem modulation_lookup_fallthrough_witness :
    modulation_scheme_and_coding_rate 10 "5G" [mc1, mc2] = none :=
  (modulation_lookup_fallthrough 10 "5G" [mc1, mc2]).2.1 (by decide)

/-- C1.  `calculate_sinr` works in the linear domain via `10**x`: it keeps
only the first three entries of the descending sort of the linear
interference values, scales their sum by `network_load / 100`, adds the
full linear noise, and returns `round(log10(signal / (I + N)), 2)`;
when three or fewer interference values are supplied the kept sum is the
sum of all of them, and every kept linear value dominates every
discarded one. -/
theorem calculate_sinr_top3 (received_power : ℝ) (interference : List ℝ)
    (noise network_load : ℝ) :
    calculate_sinr received_power interference noise network_load =
      (received_power,
       (linearTop3 interference).sum * (network_load / 100),
       noise,
       (linearTop3 interference).sum * (network_load / 100) + (10 : ℝ) ^ noise,
       roundTo2 (log10 ((10 : ℝ) ^ received_power /
         ((linearTop3 interference).sum * (network_load / 100) + (10 : ℝ) ^ noise)))) ∧
    (interference.length ≤ 3 →
      (linearTop3 interference).sum =
        (interference.map (fun value => (10 : ℝ) ^ value)).sum) ∧
    (∀ x ∈ linearTop3 interference, ∀ y ∈ linearRest interference, y ≤ x) := by
  classical
  refine ⟨rfl, ?_, ?_⟩
  · intro h
    have hperm := List.perm_insertionSort (α := ℝ) (· ≥ ·)
      (interference.map (fun value => (10 : ℝ) ^ value))
    have hlen : ((interference.map (fun value => (10 : ℝ) ^ value)).insertionSort
        (· ≥ ·)).length ≤ 3 := by
      rw [hperm.length_eq, List.length_map]
      exact h
    rw [linearTop3, List.take_of_length_le hlen]
    exact hperm.sum_eq
  · intro x hx y hy
    have hs : List.Pairwise (α := ℝ) (· ≥ ·)
        ((interference.map (fun value => (10 : ℝ) ^ value)).insertionSort (· ≥ ·)) :=
      List.sorted_insertionSort (· ≥ ·) _
    rw [← List.take_append_drop 3
      ((interference.map (fun value => (10 : ℝ) ^ value)).insertionSort (· ≥ ·))] at hs
    exact (List.pairwise_append.mp hs).2.2 x hx y hy

/-- Witness for C1: with the single interference value `0`, the kept
linear sum is the full linear sum. -/
theorem calculate_sinr_top3_witness :
    ([(0 : ℝ)].length ≤ 3) ∧
    (linearTop3 [(0 : ℝ)]).sum = (([(0 : ℝ)]).map (fun value => (10 : ℝ) ^ value)).sum :=
  ⟨by norm_num, (calculate_sinr_top3 0 [0] 0 100).2.1 (by norm_num)⟩

/-- Helper for C2: in a table with strictly increasing SINR thresholds,
thresholds are monotone in the index. -/
theorem pairwise_sinr_le {l : List MCEntry}
    (h : List.Pairwise (fun a b => a.sinr < b.sinr) l) (i j : Fin l.length)
    (hij : i ≤ j) : (l.get i).sinr ≤ (l.get j).sinr := by
  rcases eq_or_lt_of_le hij with heq | hlt
  · rw [heq]
  · exact le_of_lt (List.pairwise_iff_get.mp h i j hlt)

/-- Helper for C2: when every row carries the requested (nonempty)
generation, the thresholds are strictly increasing and the SINR is below
the `highest` threshold and not below the `lowest` one, the loop walks to
the bracketing pair and returns its lower row's spectral efficiency. -/
theorem msacrAux_bracket (sinr : ℚ) (generation : String) (hg : generation ≠ "")
    (highest lowest : MCEntry)
    (hH : ¬ highest.sinr ≤ sinr) (hL : ¬ sinr < lowest.sinr) :
    ∀ l : List MCEntry, (∀ e ∈ l, e.generation = generation) →
      List.Pairwise (fun a b => a.sinr < b.sinr) l →
      ∀ (i : ℕ) (hi : i + 1 < l.length),
        (l.get ⟨i, Nat.lt_of_succ_lt hi⟩).sinr ≤ sinr →
        sinr < (l.get ⟨i + 1, hi⟩).sinr →
        msacrAux sinr generation highest lowest (pairwiseList l) =
          some (l.get ⟨i, Nat.lt_of_succ_lt hi⟩).se := by
  intro l
  induction l with
  | nil => intro _ _ i hi; simp at hi
  | cons a t ih =>
    cases t with
    | nil =>
      intro _ _ i hi
      simp only [List.length_cons, List.length_nil] at hi
      omega
    | cons b t' =>
      intro hgen hsort i hi hlo hhi
      have hcond : a.generation ≠ "" ∧ b.generation = generation :=
        ⟨by rw [hgen a (by simp)]; exact hg, hgen b (by simp)⟩
      show msacrAux sinr generation highest lowest
        ((a, b) :: pairwiseList (b :: t')) = _
      rw [msacrAux, if_pos hcond]
      cases i with
      | zero =>
        rw [if_pos ⟨hlo, hhi⟩]
        rfl
      | succ j =>
        have hjlt : j + 1 < (b :: t').length := by
          simpa [Nat.succ_lt_succ_iff] using hi
        have hlo' : ((b :: t').get ⟨j, Nat.lt_of_succ_lt hjlt⟩).sinr ≤ sinr := hlo
        have hhi' : sinr < ((b :: t').get ⟨j + 1, hjlt⟩).sinr := hhi
        have hble : b.sinr ≤ ((b :: t').get ⟨j, Nat.lt_of_succ_lt hjlt⟩).sinr := by
          have := pairwise_sinr_le (List.Pairwise.of_cons hsort)
            ⟨0, Nat.succ_pos _⟩ ⟨j, Nat.lt_of_succ_lt hjlt⟩ (by simp)
          exact this
        have hnb : ¬ (a.sinr ≤ sinr ∧ sinr < b.sinr) := by
          rintro ⟨_, hcon⟩
          exact absurd (lt_of_lt_of_le hcon (le_trans hble hlo')) (lt_irrefl _)
        rw [if_neg hnb, if_neg hH, if_neg hL]
        exact ih (fun e he => hgen e (List.mem_cons_of_mem a he))
          (List.Pairwise.of_cons hsort) j hjlt hlo' hhi'

/-- C2.  On a table with at least two rows, strictly increasing SINR
thresholds and every row carrying the requested (nonempty) generation,
`modulation_scheme_and_coding_rate` returns the lower bracketing row's
spectral efficiency when `lower.sinr ≤ sinr < upper.sinr` (a SINR exactly
at a threshold picks the lower row), saturates at the last row's
spectral efficiency when the SINR reaches the top threshold, and returns
`0` below the bottom threshold. -/
theorem modulation_lookup_wellformed (sinr : ℚ) (generation : String)
    (lut : List MCEntry) (hg : generation ≠ "")
    (hgen : ∀ e ∈ lut, e.generation = generation)
    (hsort : List.Pairwise (fun a b => a.sinr < b.sinr) lut)
    (hlen : 2 ≤ lut.length) :
    (∀ (i : ℕ) (hi : i + 1 < lut.length),
       (lut.get ⟨i, Nat.lt_of_succ_lt hi⟩).sinr ≤ sinr →
       sinr < (lut.get ⟨i + 1, hi⟩).sinr →
       modulation_scheme_and_coding_rate sinr generation lut =
         some (lut.get ⟨i, Nat.lt_of_succ_lt hi⟩).se) ∧
    (∀ hne : lut ≠ [], (lut.getLast hne).sinr ≤ sinr →
       modulation_scheme_and_coding_rate sinr generation lut =
         some (lut.getLast hne).se) ∧
    (∀ hne : lut ≠ [], sinr < (lut.head hne).sinr →
       modulation_scheme_and_coding_rate sinr generation lut = some 0) := by
  cases lut with
  | nil => simp at hlen
  | cons a t =>
  cases t with
  | nil => simp at hlen
  | cons b t' =>
  have hcond : a.generation ≠ "" ∧ b.generation = generation :=
    ⟨by rw [hgen a (by simp)]; exact hg, hgen b (by simp)⟩
  have hne0 : (a :: b :: t') ≠ [] := List.cons_ne_nil _ _
  have hlast_get : (a :: b :: t').getLast hne0 =
      (a :: b :: t').get ⟨(a :: b :: t').length - 1, by simp⟩ :=
    List.getLast_eq_get _ _
  refine ⟨?_, ?_, ?_⟩
  · -- bracketing pair
    intro i hi hlo hhi
    have hH : ¬ ((a :: b :: t').getLast hne0).sinr ≤ sinr := by
      intro hcon
      have hup : ((a :: b :: t').get ⟨i + 1, hi⟩).sinr ≤
          ((a :: b :: t').getLast hne0).sinr := by
        rw [hlast_get]
        exact pairwise_sinr_le hsort _ _ (by
          simp only [Fin.mk_le_mk]
          omega)
      exact absurd (lt_of_lt_of_le hhi (le_trans hup hcon)) (lt_irrefl _)
    have hL : ¬ sinr < a.sinr := by
      intro hcon
      have hdown : a.sinr ≤ ((a :: b :: t').get ⟨i, Nat.lt_of_succ_lt hi⟩).sinr := by
        have := pairwise_sinr_le hsort ⟨0, Nat.succ_pos _⟩
          ⟨i, Nat.lt_of_succ_lt hi⟩ (by simp)
        exact this
      exact absurd (lt_of_lt_of_le hcon (le_trans hdown hlo)) (lt_irrefl _)
    exact msacrAux_bracket sinr generation hg _ a hH hL (a :: b :: t') hgen hsort i hi hlo hhi
  · -- saturation at the last row
    intro hne hsat
    have hsat' : ((a :: b :: t').getLast hne0).sinr ≤ sinr := hsat
    have hble : b.sinr ≤ ((a :: b :: t').getLast hne0).sinr := by
      rw [hlast_get]
      have := pairwise_sinr_le hsort ⟨1, by simp⟩
        ⟨(a :: b :: t').length - 1, by simp⟩ (by
          simp only [Fin.mk_le_mk, List.length_cons]
          omega)
      exact this
    have hnb : ¬ (a.sinr ≤ sinr ∧ sinr < b.sinr) := by
      rintro ⟨_, hcon⟩
      exact absurd (lt_of_lt_of_le hcon (le_trans hble hsat')) (lt_irrefl _)
    show msacrAux sinr generation ((a :: b :: t').getLast hne0) a
      ((a, b) :: pairwiseList (b :: t')) = some ((a :: b :: t').getLast hne0).se
    rw [msacrAux, if_pos hcond, if_neg hnb, if_pos hsat']
  · -- below the bottom threshold
    intro hne hbelow
    have hbelow' : sinr < a.sinr := hbelow
    have hH : ¬ ((a :: b :: t').getLast hne0).sinr ≤ sinr := by
      intro hcon
      have hdown : a.sinr ≤ ((a :: b :: t').getLast hne0).sinr := by
        rw [hlast_get]
        have := pairwise_sinr_le hsort ⟨0, Nat.succ_pos _⟩
          ⟨(a :: b :: t').length - 1, by simp⟩ (by simp)
        exact this
      exact absurd (lt_of_lt_of_le hbelow' (le_trans hdown hcon)) (lt_irrefl _)
    have hnb : ¬ (a.sinr ≤ sinr ∧ sinr < b.sinr) := by
      rintro ⟨h1, _⟩
      exact absurd hbelow' (not_lt.mpr h1)
    show msacrAux sinr generation ((a :: b :: t').getLast hne0) a
      ((a, b) :: pairwiseList (b :: t')) = some 0
    rw [msacrAux, if_pos hcond, if_neg hnb, if_neg hH, if_pos hbelow']

/-- Witness for C2: on the two-row 4G table, a SINR of `-5` (bracketed by
`-6.7` and `-4.7`) returns the lower row's spectral efficiency. -/
theorem modulation_lookup_wellformed_witness :
    modulation_scheme_and_coding_rate (-5) "4G" [mc1, mc2] = some mc1.se :=
  (modulation_lookup_wellformed (-5) "4G" [mc1, mc2] (by decide) (by decide)
    (by norm_num [List.pairwise_cons, mc1, mc2]) (by decide)).1 0 (by decide)
    (show mc1.sinr ≤ -5 by norm_num [mc1])
    (show (-5 : ℚ) < mc2.sinr by norm_num [mc2])

/-- C3.  `determine_path_loss` returns the larger of the free-space and
extended-Hata losses (so the combined loss is never below free space) with
the matching model name, and for `0.03 < f ≤ 3` GHz `path_loss_calculator`
routes through exactly this combination. -/
theorem path_loss_floor {S : Type} (env : NpRng S) (st : S)
    (frequency distance ant_height : ℝ) (ant_type : String)
    (building_height street_width : ℝ) (settlement_type type_of_sight : String)
    (ue_height : ℝ) (above_roof : ℤ) (indoor : Bool) (seed_value : Option ℤ)
    (iterations : ℕ) :
    (∀ fs eh : ℝ,
       (determine_path_loss fs eh).1 = max fs eh ∧
       fs ≤ (determine_path_loss fs eh).1 ∧
       ((determine_path_loss fs eh).2 = "free_space_path_loss" →
         (determine_path_loss fs eh).1 = fs) ∧
       ((determine_path_loss fs eh).2 = "extended_hata_path_loss" →
         (determine_path_loss fs eh).1 = eh)) ∧
    (0.03 < frequency → frequency ≤ 3 →
      path_loss_calculator env st frequency distance ant_height ant_type
        building_height street_width settlement_type type_of_sight ue_height
        above_roof indoor seed_value iterations =
      (hataCombo env st frequency distance ant_height ant_type building_height
        street_width settlement_type type_of_sight ue_height above_roof
        seed_value iterations).bind (fun plm =>
          pure ((roundTo2 (plm.1.1 +
            (outdoor_to_indoor_path_loss env plm.2 frequency indoor seed_value).1),
            plm.1.2),
            (outdoor_to_indoor_path_loss env plm.2 frequency indoor seed_value).2))) := by
  constructor
  · intro fs eh
    unfold determine_path_loss
    split
    · rename_i hlt
      exact ⟨(max_eq_left (le_of_lt hlt)).symm, le_refl fs, fun _ => rfl,
        fun hc => absurd hc (by simp)⟩
    · rename_i hlt
      exact ⟨(max_eq_right (not_lt.mp hlt)).symm, not_lt.mp hlt,
        fun hc => absurd hc (by simp), fun _ => rfl⟩
  · intro h1 h2
    unfold path_loss_calculator
    rw [if_pos (⟨h1, h2⟩ : 0.03 < frequency ∧ frequency ≤ 3)]
    rfl

/-- Witness for C3: the floor property at `fs = 5`, `eh = 7`, and the
band routing at 0.7 GHz with concrete arguments. -/
theorem path_loss_floor_witness :
    ((determine_path_loss 5 7).1 = max 5 7 ∧
     (5 : ℝ) ≤ (determine_path_loss 5 7).1 ∧
     ((determine_path_loss 5 7).2 = "free_space_path_loss" →
       (determine_path_loss 5 7).1 = 5) ∧
     ((determine_path_loss 5 7).2 = "extended_hata_path_loss" →
       (determine_path_loss 5 7).1 = 7)) ∧
    path_loss_calculator trivEnv () 0.7 1000 30 "macro" 20 20 "urban" "nlos"
        1.5 0 false (some 42) 1 =
      (hataCombo trivEnv () 0.7 1000 30 "macro" 20 20 "urban" "nlos"
        1.5 0 (some 42) 1).bind (fun plm =>
          pure ((roundTo2 (plm.1.1 +
            (outdoor_to_indoor_path_loss trivEnv plm.2 0.7 false (some 42)).1),
            plm.1.2),
            (outdoor_to_indoor_path_loss trivEnv plm.2 0.7 false (some 42)).2)) :=
  ⟨(path_loss_floor trivEnv () 0.7 1000 30 "macro" 20 20 "urban" "nlos"
      1.5 0 false (some 42) 1).1 5 7,
   (path_loss_floor trivEnv () 0.7 1000 30 "macro" 20 20 "urban" "nlos"
      1.5 0 false (some 42) 1).2 (by norm_num) (by norm_num)⟩

/-- Helper for C4: the `alpha_exponent` computation only raises the
distance error. -/
theorem hataAlphaExponent_no_freq (frequency distance hb g : ℝ) :
    hataAlphaExponent frequency distance hb ≠ .error (.frequencyOutOfRange g) := by
  unfold hataAlphaExponent
  split_ifs <;> simp

/-- Helper for C4: the banded Hata formulas only raise the incorrect-band
error. -/
theorem hataBandPathLoss_no_freq (frequency distance hb alpha_hm beta_hb
    alpha_exponent g : ℝ) :
    hataBandPathLoss frequency distance hb alpha_hm beta_hb alpha_exponent ≠
      .error (.frequencyOutOfRange g) := by
  unfold hataBandPathLoss
  split_ifs <;> simp

/-- Helper for C4: PART 1 of `extended_hata` never raises the
frequency-out-of-range error. -/
theorem hataMedianPathLoss_no_freq (frequency distance hm hb alpha_hm beta_hb
    alpha_exponent g : ℝ) (settlement_type : String) :
    hataMedianPathLoss frequency distance hm hb alpha_hm beta_hb alpha_exponent
      settlement_type ≠ .error (.frequencyOutOfRange g) := by
  unfold hataMedianPathLoss
  split_ifs
  · simp
  · split
    · rename_i e heq
      intro hcon
      injection hcon with h2
      rw [h2] at heq
      exact hataBandPathLoss_no_freq frequency distance hb alpha_hm beta_hb
        alpha_exponent g heq
    · simp
  · simp
  · simp

/-- Helper for C4: PART 2 of `extended_hata` only raises the roof-line
error. -/
theorem hataVariation_no_freq {S : Type} (env : NpRng S) (st : S)
    (frequency distance path_loss : ℝ) (above_roof : ℤ)
    (seed_value : Option ℤ) (iterations : ℕ) (g : ℝ) :
    hataVariation env st frequency distance path_loss above_roof seed_value
      iterations ≠ .error (.frequencyOutOfRange g) := by
  unfold hataVariation
  split_ifs <;> simp

/-- Helper for C4: `extended_hata` never raises the frequency-out-of-range
error (its own errors are the distance, Hata-band and roof-line ones). -/
theorem extended_hata_no_freq_error {S : Type} (env : NpRng S) (st : S)
    (frequency distance ant_height : ℝ) (ant_type : String)
    (building_height street_width : ℝ) (settlement_type type_of_sight : String)
    (ue_height : ℝ) (above_roof : ℤ) (seed_value : Option ℤ) (iterations : ℕ)
    (g : ℝ) :
    extended_hata env st frequency distance ant_height ant_type building_height
      street_width settlement_type type_of_sight ue_height above_roof seed_value
      iterations ≠ .error (.frequencyOutOfRange g) := by
  intro h
  unfold extended_hata at h
  split at h
  · rename_i e heq
    injection h with h2
    rw [h2] at heq
    exact hataAlphaExponent_no_freq _ _ _ g heq
  · split at h
    · rename_i e heq
      injection h with h2
      rw [h2] at heq
      exact hataMedianPathLoss_no_freq _ _ _ _ _ _ _ g _ heq
    · split at h
      · rename_i e heq
        injection h with h2
        rw [h2] at heq
        exact hataVariation_no_freq env st _ _ _ above_roof seed_value iterations g heq
      · exact Except.noConfusion h

/-- Helper for C4: `hataCombo` never raises the frequency-out-of-range
error either. -/
theorem hataCombo_no_freq_error {S : Type} (env : NpRng S) (st : S)
    (frequency distance ant_height : ℝ) (ant_type : String)
    (building_height street_width : ℝ) (settlement_type type_of_sight : String)
    (ue_height : ℝ) (above_roof : ℤ) (seed_value : Option ℤ) (iterations : ℕ)
    (g : ℝ) :
    hataCombo env st frequency distance ant_height ant_type building_height
      street_width settlement_type type_of_sight ue_height above_roof seed_value
      iterations ≠ .error (.frequencyOutOfRange g) := by
  intro h
  unfold hataCombo at h
  dsimp only at h
  cases heh : extended_hata env
      (free_space env st frequency distance ant_height ue_height seed_value iterations).2
      frequency distance ant_height ant_type building_height street_width
      settlement_type type_of_sight ue_height above_roof seed_value iterations with
  | error e =>
    rw [heh] at h
    simp only [bind, Except.bind] at h
    injection h with h2
    rw [h2] at heh
    exact extended_hata_no_freq_error env _ frequency distance ant_height ant_type
      building_height street_width settlement_type type_of_sight ue_height above_roof
      seed_value iterations g heh
  | ok v =>
    rw [heh] at h
    simp only [bind, Except.bind, pure, Except.pure] at h
    exact Except.noConfusion h

/-- Helper for C4: any model name that `hataCombo` returns is one of the
two names produced by `determine_path_loss`. -/
theorem hataCombo_model_name {S : Type} (env : NpRng S) (st : S)
    (frequency distance ant_height : ℝ) (ant_type : String)
    (building_height street_width : ℝ) (settlement_type type_of_sight : String)
    (ue_height : ℝ) (above_roof : ℤ) (seed_value : Option ℤ) (iterations : ℕ)
    (pl : ℝ) (m : String) (st' : S)
    (h : hataCombo env st frequency distance ant_height ant_type building_height
      street_width settlement_type type_of_sight ue_height above_roof seed_value
      iterations = .ok ((pl, m), st')) :
    m = "free_space_path_loss" ∨ m = "extended_hata_path_loss" := by
  unfold hataCombo at h
  dsimp only at h
  cases heh : extended_hata env
      (free_space env st frequency distance ant_height ue_height seed_value iterations).2
      frequency distance ant_height ant_type building_height street_width
      settlement_type type_of_sight ue_height above_roof seed_value iterations with
  | error e =>
    rw [heh] at h
    exact absurd h (by simp [bind, Except.bind])
  | ok v =>
    rw [heh] at h
    simp only [bind, Except.bind, pure, Except.pure, Except.ok.injEq,
      Prod.mk.injEq] at h
    rw [← h.1.2]
    unfold determine_path_loss
    split
    · exact Or.inl rfl
    · exact Or.inr rfl

/-- C4 (amended).  `path_loss_calculator` raises the `ValueError` naming
the offending frequency exactly when `f ≤ 0.03` or `6 ≤ f`; for
`0.03 < f ≤ 3` it returns the free-space/extended-Hata combination; and
for `3 < f < 6` it returns the UMa-NLOS-optional value tagged
`"uma_nlos_optional"` (at `f = 3` exactly, the Hata branch is taken). -/
theorem plc_frequency_dispatch {S : Type} (env : NpRng S) (st : S)
    (frequency distance ant_height : ℝ) (ant_type : String)
    (building_height street_width : ℝ) (settlement_type type_of_sight : String)
    (ue_height : ℝ) (above_roof : ℤ) (indoor : Bool) (seed_value : Option ℤ)
    (iterations : ℕ) :
    (frequency ≤ 0.03 ∨ 6 ≤ frequency →
      path_loss_calculator env st frequency distance ant_height ant_type
        building_height street_width settlement_type type_of_sight ue_height
        above_roof indoor seed_value iterations =
      .error (.frequencyOutOfRange frequency)) ∧
    (0.03 < frequency → frequency < 6 → ∀ g : ℝ,
      path_loss_calculator env st frequency distance ant_height ant_type
        building_height street_width settlement_type type_of_sight ue_height
        above_roof indoor seed_value iterations ≠
      .error (.frequencyOutOfRange g)) ∧
    (0.03 < frequency → frequency ≤ 3 →
      path_loss_calculator env st frequency distance ant_height ant_type
        building_height street_width settlement_type type_of_sight ue_height
        above_roof indoor seed_value iterations =
      (hataCombo env st frequency distance ant_height ant_type building_height
        street_width settlement_type type_of_sight ue_height above_roof
        seed_value iterations).bind (fun plm =>
          pure ((roundTo2 (plm.1.1 +
            (outdoor_to_indoor_path_loss env plm.2 frequency indoor seed_value).1),
            plm.1.2),
            (outdoor_to_indoor_path_loss env plm.2 frequency indoor seed_value).2))) ∧
    (3 < frequency → frequency < 6 →
      path_loss_calculator env st frequency distance ant_height ant_type
        building_height street_width settlement_type type_of_sight ue_height
        above_roof indoor seed_value iterations =
      pure ((roundTo2 ((uma_nlos_optional env st frequency distance ant_height
          ue_height seed_value iterations).1 +
        (outdoor_to_indoor_path_loss env
          (uma_nlos_optional env st frequency distance ant_height ue_height
            seed_value iterations).2 frequency indoor seed_value).1),
        "uma_nlos_optional"),
        (outdoor_to_indoor_path_loss env
          (uma_nlos_optional env st frequency distance ant_height ue_height
            seed_value iterations).2 frequency indoor seed_value).2)) := by
  refine ⟨?_, ?_, ?_, ?_⟩
  · intro h
    unfold path_loss_calculator
    have hn1 : ¬ (0.03 < frequency ∧ frequency ≤ 3) := by
      rcases h with h | h
      · exact fun hc => absurd h (not_le.mpr hc.1)
      · exact fun hc => absurd hc.2 (not_le.mpr (lt_of_lt_of_le (by norm_num) h))
    have hn2 : ¬ (3 ≤ frequency ∧ frequency < 6) := by
      rcases h with h | h
      · exact fun hc => absurd hc.1 (not_le.mpr (lt_of_le_of_lt h (by norm_num)))
      · exact fun hc => absurd hc.2 (not_lt.mpr h)
    rw [if_neg hn1, if_neg hn2]
    rfl
  · intro h1 h2 g hcon
    by_cases h3 : frequency ≤ 3
    · unfold path_loss_calculator at hcon
      rw [if_pos (⟨h1, h3⟩ : 0.03 < frequency ∧ frequency ≤ 3)] at hcon
      dsimp only at hcon
      cases hc : hataCombo env st frequency distance ant_height ant_type
          building_height street_width settlement_type type_of_sight ue_height
          above_roof seed_value iterations with
      | error e =>
        rw [hc] at hcon
        simp only [bind, Except.bind] at hcon
        injection hcon with h4
        rw [h4] at hc
        exact hataCombo_no_freq_error env st frequency distance ant_height ant_type
          building_height street_width settlement_type type_of_sight ue_height
          above_roof seed_value iterations g hc
      | ok v =>
        rw [hc] at hcon
        simp only [bind, Except.bind, pure, Except.pure] at hcon
        exact Except.noConfusion hcon
    · unfold path_loss_calculator at hcon
      rw [if_neg (fun hc => h3 hc.2),
        if_pos (⟨le_of_lt (not_le.mp h3), h2⟩ : 3 ≤ frequency ∧ frequency < 6)] at hcon
      simp only [bind, Except.bind, pure, Except.pure] at hcon
      exact Except.noConfusion hcon
  · intro h1 h2
    unfold path_loss_calculator
    rw [if_pos (⟨h1, h2⟩ : 0.03 < frequency ∧ frequency ≤ 3)]
    rfl
  · intro h1 h2
    unfold path_loss_calculator
    rw [if_neg (fun hc => absurd h1 (not_lt.mpr hc.2)),
      if_pos (⟨le_of_lt h1, h2⟩ : 3 ≤ frequency ∧ frequency < 6)]
    rfl

/-- Witness for C4: at 0.02 GHz the calculator fails with the error naming
the frequency. -/
theorem plc_frequency_dispatch_witness :
    path_loss_calculator trivEnv () 0.02 1000 30 "macro" 20 20 "urban" "nlos"
      1.5 0 false (some 42) 1 = .error (.frequencyOutOfRange 0.02) :=
  (plc_frequency_dispatch trivEnv () 0.02 1000 30 "macro" 20 20 "urban" "nlos"
    1.5 0 false (some 42) 1).1 (Or.inl (by norm_num))

/-- Counterexample for C4 as stated: at exactly `f = 3` GHz (claimed to
yield the UMa-NLOS-optional model) the calculator does not return the
model name `"uma_nlos_optional"`: the Hata branch is taken. -/
theorem plc_boundary_three_counterexample :
    (path_loss_calculator trivEnv () 3 1000 30 "macro" 20 20 "urban" "nlos"
      1.5 0 false (some 42) 1).map (fun r => r.1.2) ≠ .ok "uma_nlos_optional" := by
  unfold path_loss_calculator
  rw [if_pos (⟨by norm_num, by norm_num⟩ : (0.03 : ℝ) < 3 ∧ (3 : ℝ) ≤ 3)]
  dsimp only
  cases hc : hataCombo trivEnv () 3 1000 30 "macro" 20 20 "urban" "nlos"
      1.5 0 (some 42) 1 with
  | error e =>
    simp [bind, Except.bind, Except.map]
  | ok v =>
    obtain ⟨⟨pl, m⟩, st'⟩ := v
    have hm := hataCombo_model_name trivEnv () 3 1000 30 "macro" 20 20 "urban"
      "nlos" 1.5 0 (some 42) 1 pl m st' hc
    simp only [bind, Except.bind, pure, Except.pure, Except.map]
    intro hcon
    injection hcon with h2
    rcases hm with rfl | rfl <;> simp at h2

/-- Helper for C5: a square root equals a nonnegative value whose square
is the radicand. -/
theorem sqrt_eq_of_sq {a b : ℝ} (h : a = b ^ 2) (hb : 0 ≤ b) : Real.sqrt a = b := by
  rw [h]
  exact Real.sqrt_sq hb

/-- Helper for C5: the absolute shoelace half-sum. -/
theorem abs_div_two_eq {a b : ℝ} (h : a = -(2 * b)) (hb : 0 ≤ b) : |a| / 2 = b := by
  rw [h, abs_neg, abs_of_nonneg (by linarith), mul_comm]
  exact mul_div_cancel_right₀ b (by norm_num)

/-- Helper for C5: every hexagon assembled by the tessellation loop is a
closed 7-point ring, its six sides all have the side length
`sl = 2 * radius * tan(pi / 6)`, and its shoelace area is
`(3 * sqrt 3 / 2) * sl ^ 2 = 2 * sqrt 3 * radius ^ 2`. -/
theorem hexPoly_regular (x y r : ℝ) (hr : 0 < r) :
    (hexPoly x y r).head? = (hexPoly x y r).getLast? ∧
    (hexPoly x y r).length = 7 ∧
    (∀ q ∈ (hexPoly x y r).zip (hexPoly x y r).tail,
      lineLength q.1 q.2 = 2 * r * Real.tan (Real.pi / 6)) ∧
    shoelaceArea (hexPoly x y r) =
      3 * Real.sqrt 3 / 2 * (2 * r * Real.tan (Real.pi / 6)) ^ 2 ∧
    shoelaceArea (hexPoly x y r) = 2 * Real.sqrt 3 * r ^ 2 := by
  have hs0 : (0 : ℝ) < Real.sqrt 3 := Real.sqrt_pos.mpr (by norm_num)
  have h3 : Real.sqrt 3 ^ 2 = 3 := Real.sq_sqrt (by norm_num)
  have hsne : Real.sqrt 3 ≠ 0 := ne_of_gt hs0
  have hsl : 2 * r * (1 / Real.sqrt 3) = 2 * (r * Real.sqrt 3 / 3) := by
    rw [mul_one_div, div_eq_iff hsne]
    linear_combination (-(2 * r) / 3) * h3
  refine ⟨rfl, rfl, ?_, ?_, ?_⟩
  · intro q hq
    simp only [hexPoly, Real.tan_pi_div_six, Real.cos_pi_div_six, List.tail_cons,
      List.zip_cons_cons, List.zip_nil_right, List.mem_cons, List.not_mem_nil,
      or_false] at hq
    rw [Real.tan_pi_div_six]
    rcases hq with rfl | rfl | rfl | rfl | rfl | rfl <;>
      · simp only [lineLength, hsl]
        refine sqrt_eq_of_sq ?_ (by positivity)
        first
          | linear_combination (r ^ 2 * Real.sqrt 3 ^ 2 / 9) * h3
          | ring
  · simp only [shoelaceArea, hexPoly, Real.tan_pi_div_six, Real.cos_pi_div_six,
      List.tail_cons, List.zip_cons_cons, List.zip_nil_right, List.map_cons,
      List.map_nil, List.sum_cons, List.sum_nil, hsl]
    refine abs_div_two_eq ?_ (by positivity)
    ring
  · simp only [shoelaceArea, hexPoly, Real.tan_pi_div_six, Real.cos_pi_div_six,
      List.tail_cons, List.zip_cons_cons, List.zip_nil_right, List.map_cons,
      List.map_nil, List.sum_cons, List.sum_nil, hsl]
    refine abs_div_two_eq ?_ (by positivity)
    linear_combination (-(4 * r ^ 2 * Real.sqrt 3) / 3) * h3

/-- C5 (amended).  Every hexagon produced by `calculate_polygons` with
radius `r > 0` is a closed 7-point ring whose six sides all have length
`sl = 2 * r * tan(pi / 6)` and whose planar (shoelace) area is
`(3 * sqrt 3 / 2) * sl ^ 2 = 2 * sqrt 3 * r ^ 2` — the regular-hexagon
area formula applied to the side length `sl`, not to the radius. -/
theorem hex_tessellation_area (startx starty endx endy radius : ℝ)
    (hr : 0 < radius) :
    ∀ poly ∈ calculate_polygons startx starty endx endy radius,
      poly.head? = poly.getLast? ∧
      poly.length = 7 ∧
      (∀ q ∈ poly.zip poly.tail,
        lineLength q.1 q.2 = 2 * radius * Real.tan (Real.pi / 6)) ∧
      shoelaceArea poly =
        3 * Real.sqrt 3 / 2 * (2 * radius * Real.tan (Real.pi / 6)) ^ 2 ∧
      shoelaceArea poly = 2 * Real.sqrt 3 * radius ^ 2 := by
  intro poly hmem
  obtain ⟨a, b, rfl⟩ : ∃ a b : ℝ, poly = hexPoly a b radius := by
    unfold calculate_polygons at hmem
    simp only [List.mem_flatMap, List.mem_map, List.mem_range] at hmem
    obtain ⟨i, _, j, _, hpoly⟩ := hmem
    exact ⟨_, _, hpoly.symm⟩
  exact hexPoly_regular a b radius hr

/-- Helper for C5: a concrete polygon produced by
`calculate_polygons 0 0 1 1 250` (the row-1, column-0 hexagon). -/
theorem calculate_polygons_mem_250 :
    hexPoly (-(1000 * Real.tan (Real.pi / 6) * Real.cos (Real.pi / 6)))
      (-(1000 * Real.tan (Real.pi / 6))) 250 ∈
    calculate_polygons 0 0 1 1 250 := by
  have htan : (0 : ℝ) < Real.tan (Real.pi / 6) := by
    rw [Real.tan_pi_div_six]
    positivity
  have hcos : (0 : ℝ) < Real.cos (Real.pi / 6) := by
    rw [Real.cos_pi_div_six]
    positivity
  unfold calculate_polygons
  simp only [List.mem_flatMap, List.mem_map, List.mem_range]
  refine ⟨0, ?_, 0, ?_, ?_⟩
  · rw [Nat.ceil_pos]
    apply div_pos
    · nlinarith
    · nlinarith
  · rw [if_neg (by decide : ¬ (0 + 1) % 2 = 0)]
    simp only [List.pure_def, List.bind_eq_flatMap, List.mem_flatMap, List.mem_range,
      List.mem_singleton]
    refine ⟨0, ?_, by norm_num⟩
    rw [Nat.ceil_pos]
    apply div_pos
    · nlinarith
    · nlinarith
  · rw [if_neg (by decide : ¬ (0 + 1) % 2 = 0)]
    congr 1
    · ring
    · ring

/-- Witness for C5 at radius 250: the produced hexagon's area is
`2 * sqrt 3 * 250 ^ 2` (the repository test value 779422863 m² arises the
same way at radius 15000). -/
theorem hex_tessellation_area_witness :
    shoelaceArea (hexPoly (-(1000 * Real.tan (Real.pi / 6) * Real.cos (Real.pi / 6)))
      (-(1000 * Real.tan (Real.pi / 6))) 250) = 2 * Real.sqrt 3 * 250 ^ 2 :=
  (hex_tessellation_area 0 0 1 1 250 (by norm_num) _ calculate_polygons_mem_250).2.2.2.2

/-- Counterexample for C5 as stated: a hexagon produced at radius 250 whose
planar area is not `(3 * sqrt 3 / 2) * 250 ^ 2` (its area is
`2 * sqrt 3 * 250 ^ 2`, the hexagon formula applied to the side length). -/
theorem hex_area_counterexample :
    hexPoly (-(1000 * Real.tan (Real.pi / 6) * Real.cos (Real.pi / 6)))
      (-(1000 * Real.tan (Real.pi / 6))) 250 ∈
      calculate_polygons 0 0 1 1 250 ∧
    shoelaceArea (hexPoly (-(1000 * Real.tan (Real.pi / 6) * Real.cos (Real.pi / 6)))
      (-(1000 * Real.tan (Real.pi / 6))) 250) ≠
      3 * Real.sqrt 3 / 2 * 250 ^ 2 := by
  refine ⟨calculate_polygons_mem_250, ?_⟩
  rw [(hexPoly_regular (-(1000 * Real.tan (Real.pi / 6) * Real.cos (Real.pi / 6)))
    (-(1000 * Real.tan (Real.pi / 6))) 250 (by norm_num)).2.2.2.2]
  intro hcon
  nlinarith [Real.sqrt_pos.mpr (show (0 : ℝ) < 3 by norm_num)]
